import Mathlib

/-!
Verification of the static code-analysis and prompt-construction pipeline of
`src/pipeline/generate_tests.py`.

The Python script is shallowly embedded:
* the Python `ast` statement tree is the inductive `PyNode` (only the node
  shapes the script inspects are distinguished; every other statement is
  `otherStmt` carrying its child statements);
* `ast.walk` (a breadth-first traversal driven by a FIFO queue) is `walk`;
* `analyze_code_file` splits into the external file read / `ast.parse`
  boundary (`Env.fs`, `Env.parse`) and the pure post-parse analysis
  `analysisOf` (lines 61-98 of the script);
* the prompt templates, the orchestrator `process_code_file` and the batch
  driver `batch_process_directory` are embedded as pure functions over an
  explicit environment `Env`; a Python exception that the script does not
  catch is modelled as `Except.error`.
-/

/-- A Python statement node, as far as `generate_tests.py` distinguishes
statements.  `functionDef name lineno argNames body` is `ast.FunctionDef`
(`argNames` models `[arg.arg for arg in node.args.args]`);
`asyncFunctionDef` is `ast.AsyncFunctionDef` (a distinct class, not a
subclass of `ast.FunctionDef`); `classDef` is `ast.ClassDef`; `exprConst s`
is an expression statement whose value is a string constant (the only shape
`ast.get_docstring` looks at); `otherStmt` is any other statement, carrying
the statements nested inside it. -/
inductive PyNode : Type where
  | functionDef (name : String) (lineno : Nat) (argNames : List String)
      (body : List PyNode)
  | asyncFunctionDef (name : String) (lineno : Nat) (argNames : List String)
      (body : List PyNode)
  | classDef (name : String) (lineno : Nat) (body : List PyNode)
  | exprConst (s : String)
  | otherStmt (body : List PyNode)

namespace PyNode

/-- The child statements of a node, in source order: the sub-statements that
`ast.iter_child_nodes` feeds back into the `ast.walk` queue.  (Non-statement
children such as the `arguments` node contain no `FunctionDef`/`ClassDef`
statements and are irrelevant to the script's walk.) -/
def children : PyNode → List PyNode
  | functionDef _ _ _ b => b
  | asyncFunctionDef _ _ _ b => b
  | classDef _ _ b => b
  | exprConst _ => []
  | otherStmt b => b

mutual

/-- Number of nodes in a statement subtree. -/
def size : PyNode → Nat
  | functionDef _ _ _ b => 1 + sizeList b
  | asyncFunctionDef _ _ _ b => 1 + sizeList b
  | classDef _ _ b => 1 + sizeList b
  | exprConst _ => 1
  | otherStmt b => 1 + sizeList b

/-- Number of nodes in a forest of statement subtrees. -/
def sizeList : List PyNode → Nat
  | [] => 0
  | n :: ns => size n + sizeList ns

end

end PyNode

open PyNode

/-- Fuel-indexed breadth-first traversal.  With enough fuel this is exactly
the queue loop of `ast.walk`: pop the front node, push its children at the
back, yield the popped node. -/
def walkFuel : Nat → List PyNode → List PyNode
  | 0, _ => []
  | _ + 1, [] => []
  | fuel + 1, n :: rest => n :: walkFuel fuel (rest ++ n.children)

/-- `ast.walk` starting from a queue of nodes.  `walk body` (for a module
body) is the walk of `ast.walk(tree)` with the `Module` node itself dropped
(the script's `isinstance` tests never match the `Module` node).  Since each
step consumes exactly one node of the forest, `sizeList q` fuel suffices. -/
def walk (q : List PyNode) : List PyNode :=
  walkFuel (sizeList q) q

/-- Python `name.startswith('_')`: the first character is `'_'`.
(Implemented on the character list so that it evaluates by kernel
reduction.) -/
def startsWithUnderscore (s : String) : Bool :=
  match s.data with
  | [] => false
  | c :: _ => c == '_'

/-- Python `text.split(sep)` for a one-character separator `sep`: splitting
never collapses adjacent separators, so the result always has one more part
than there are separator occurrences; `''.split(sep) == ['']`. -/
def splitOnChar (sep : Char) : List Char → List (List Char)
  | [] => [[]]
  | c :: rest =>
    if c == sep then [] :: splitOnChar sep rest
    else
      match splitOnChar sep rest with
      | [] => [[c]]
      | p :: ps => (c :: p) :: ps

/-- `ast.get_docstring`: the docstring of a definition body is the value of
its first statement when that statement is a string-constant expression.
(The `inspect.cleandoc` whitespace normalization applied by the Python
function is not modelled; no claim depends on docstring contents.) -/
def get_docstring : List PyNode → Option String
  | PyNode.exprConst s :: _ => some s
  | _ => none

/-- One entry of the analyzer's `functions` list (script lines 69-74). -/
structure FunctionInfo : Type where
  name : String
  line : Nat
  args : List String
  docstring : Option String
deriving Repr, DecidableEq

/-- One entry of the analyzer's `classes` list (script lines 81-86). -/
structure ClassInfo : Type where
  name : String
  line : Nat
  methods : List String
  docstring : Option String
deriving Repr, DecidableEq

/-- Script lines 66-74: a walked node contributes to `functions` iff it is a
`FunctionDef` whose name does not start with `'_'`. -/
def fnInfo : PyNode → Option FunctionInfo
  | PyNode.functionDef name line args body =>
      if startsWithUnderscore name then none
      else some ⟨name, line, args, get_docstring body⟩
  | _ => none

/-- Script line 78: a class-body item contributes to `methods` iff it is a
`FunctionDef` whose name does not start with `'_'`. -/
def methodName : PyNode → Option String
  | PyNode.functionDef name _ _ _ =>
      if startsWithUnderscore name then none else some name
  | _ => none

/-- Script lines 75-86: every walked `ClassDef` contributes a class entry
(the class name itself is not checked against the private-name marker). -/
def clsInfo : PyNode → Option ClassInfo
  | PyNode.classDef name line body =>
      some ⟨name, line, body.filterMap methodName, get_docstring body⟩
  | _ => none

/-- The analyzer's successful result record (script lines 91-98). -/
structure SourceAnalysis : Type where
  file : String
  functions : List FunctionInfo
  classes : List ClassInfo
  complexity : Nat
  lines : Nat
deriving Repr, DecidableEq

/-- The pure part of `analyze_code_file` (script lines 61-98), applied to the
parsed module body `body` and the raw text `code`.  The walk order is the
breadth-first order of `ast.walk`; `complexity` is
`len(functions) + len(classes) * 2`; `lines` is `len(code.split('\n'))`. -/
def analysisOf (file : String) (body : List PyNode) (code : String) :
    SourceAnalysis :=
  let nodes := walk body
  let functions := nodes.filterMap fnInfo
  let classes := nodes.filterMap clsInfo
  ⟨file, functions, classes,
    functions.length + classes.length * 2,
    (splitOnChar '\n' code.data).length⟩

/-- Python `sep.join(parts)`. -/
def joinSep (sep : String) : List String → String
  | [] => ""
  | [s] => s
  | s :: rest => s ++ sep ++ joinSep sep rest

/-- Concatenation of a list of strings (models a sequence of `f.write(...)`
calls producing one artifact). -/
def concatAll : List String → String
  | [] => ""
  | s :: rest => s ++ concatAll rest

/-- Python truthiness of an optional string: `None` and `''` are falsy.
Used for `if api_key:` and `if source_code:` in the script. -/
def pyTruthy : Option String → Bool
  | none => false
  | some s => !(s == "")

/-- Last component of a POSIX path (`pathlib.Path(p).name`): the final
nonempty `/`-separated component. -/
def pathName (p : String) : String :=
  String.mk (((splitOnChar '/' p.data).filter (fun c => !c.isEmpty)).getLastD [])

/-- Index of the last occurrence of `'.'` in a character list. -/
def lastDotIdx : List Char → Option Nat
  | [] => none
  | c :: cs =>
    match lastDotIdx cs with
    | some i => some (i + 1)
    | none => if c == '.' then some 0 else none

/-- Python `pathlib.Path(p).stem`: the final path component with its last
suffix removed; the suffix is dropped only when the last `'.'` sits strictly
inside the name (`0 < i < len(name) - 1`). -/
def pyStem (p : String) : String :=
  let name := pathName p
  match lastDotIdx name.data with
  | some i =>
      if 0 < i ∧ i + 1 < name.data.length then String.mk (name.data.take i)
      else name
  | none => name

/-- The `"- name()"` lines of the Generate template (script line 139). -/
def functionsListing (functions : List FunctionInfo) : String :=
  joinSep "\n" (functions.map (fun f => "- " ++ f.name ++ "()"))

/-- The `"- name with methods: ..."` lines of the Generate template
(script lines 140-143). -/
def classesListing (classes : List ClassInfo) : String :=
  joinSep "\n"
    (classes.map (fun c => "- " ++ c.name ++ " with methods: " ++ joinSep ", " c.methods))

/-- Fixed tail of the Generate template, from `## YOUR TASK` on (script
lines 167-208); the test-framework label is interpolated once in the
`Best Practices` item. -/
def generationTaskTail (testFramework : String) : String :=
  "\n```\n\n## YOUR TASK\n\nGenerate a comprehensive test suite for this code that:\n\n"
  ++ "1. **Test Completeness** (30/30 points):\n"
  ++ "   - Test all critical paths (happy path + error cases)\n"
  ++ "   - Cover edge cases and boundary conditions\n"
  ++ "   - Test error handling and exceptions\n"
  ++ "   - Test input validation\n\n"
  ++ "2. **Test Quality** (25/25 points):\n"
  ++ "   - Follow AAA pattern (Arrange, Act, Assert)\n"
  ++ "   - Use descriptive test names\n"
  ++ "   - Ensure test isolation\n"
  ++ "   - Use fixtures for common setup\n"
  ++ "   - Make tests deterministic\n\n"
  ++ "3. **Test Reliability** (20/20 points):\n"
  ++ "   - Mock external dependencies appropriately\n"
  ++ "   - Add proper timeouts where needed\n"
  ++ "   - Ensure tests fail for the right reasons\n\n"
  ++ "4. **Testing Layers** (15/15 points):\n"
  ++ "   - Provide comprehensive unit tests\n"
  ++ "   - Include integration tests where components interact\n"
  ++ "   - Balance coverage vs execution time\n\n"
  ++ "5. **Best Practices** (10/10 points):\n"
  ++ "   - Follow " ++ testFramework ++ " conventions\n"
  ++ "   - Add clear documentation\n"
  ++ "   - Include realistic test data\n"
  ++ "   - Note any security testing\n\n"
  ++ "Generate the complete test file with:\n"
  ++ "- Import statements\n"
  ++ "- Fixtures for common setup\n"
  ++ "- Comprehensive test classes\n"
  ++ "- Detailed test methods with docstrings\n"
  ++ "- Comments explaining complex test scenarios\n\n"
  ++ "Target: 90+ quality score on the rubric above.\n"

/-- Script lines 117-208: `create_test_generation_prompt`.  The empty
listings render as the literal `"None"` (Python truthiness of the joined
string). -/
def create_test_generation_prompt (codePath codeContent : String)
    (analysis : SourceAnalysis) (agentInstructions skillRubric : String)
    (testFramework : String) : String :=
  let functionsList := functionsListing analysis.functions
  let classesList := classesListing analysis.classes
  agentInstructions
  ++ "\n\n## TEST GENERATION GUIDELINES\n"
  ++ skillRubric
  ++ "\n\n## CODE TO TEST\n\n**File**: "
  ++ codePath
  ++ "\n**Complexity**: " ++ toString analysis.complexity ++ " (functions + classes)"
  ++ "\n**Framework**: " ++ testFramework
  ++ "\n\n### Functions to Test:\n"
  ++ (if functionsList == "" then "None" else functionsList)
  ++ "\n\n### Classes to Test:\n"
  ++ (if classesList == "" then "None" else classesList)
  ++ "\n\n### Full Code:\n```python\n"
  ++ codeContent
  ++ generationTaskTail testFramework

/-- The optional source block of the Evaluate template (script lines
229-236); emitted only when the supplied source text is truthy. -/
def evalSourceBlock (sourceCode : String) : String :=
  "\n### Source Code Being Tested:\n```python\n" ++ sourceCode ++ "\n```\n"

/-- Head of the Evaluate template, up to (and including) the blank line
before the optional source block (script lines 238-249). -/
def evalPromptHead (testCode agentInstructions skillRubric : String) : String :=
  agentInstructions
  ++ "\n\n## TEST EVALUATION RUBRIC\n"
  ++ skillRubric
  ++ "\n\n## TEST CODE TO EVALUATE\n\n```python\n"
  ++ testCode
  ++ "\n```\n\n"

/-- Fixed tail of the Evaluate template, from the blank line after the
optional source block to the end (script lines 249-279). -/
def evalPromptTail : String :=
  "\n\n## YOUR TASK\n\nEvaluate this test suite using the rubric above. Provide:\n\n"
  ++ "1. **Detailed Scores** for each category:\n"
  ++ "   - Test Completeness (X/30)\n"
  ++ "   - Test Quality & Maintainability (X/25)\n"
  ++ "   - Test Reliability (X/20)\n"
  ++ "   - Testing Layers (X/15)\n"
  ++ "   - Best Practices (X/10)\n\n"
  ++ "2. For each category:\n"
  ++ "   - State the score and why\n"
  ++ "   - Quote specific evidence from the tests\n"
  ++ "   - Note what\x27s missing or could be improved\n\n"
  ++ "3. **Overall Assessment**:\n"
  ++ "   - Total score (X/100)\n"
  ++ "   - Quality tier\n"
  ++ "   - 2-3 key strengths\n"
  ++ "   - 2-3 critical gaps\n\n"
  ++ "4. **Prioritized Recommendations**:\n"
  ++ "   - High priority (do first)\n"
  ++ "   - Medium priority (next sprint)\n"
  ++ "   - Low priority (technical debt)\n\n"
  ++ "Be specific with examples and quote code where relevant.\n"

/-- Script lines 211-279: `create_test_evaluation_prompt`.  `sourceCode`
models the `source_code` argument (`none` = Python `None`); the block is
included only when `source_code` is truthy, i.e. not `None` and not the
empty string. -/
def create_test_evaluation_prompt (testCode : String)
    (sourceCode : Option String) (agentInstructions skillRubric : String) :
    String :=
  let sourceBlock :=
    match sourceCode with
    | none => ""
    | some s => if s == "" then "" else evalSourceBlock s
  evalPromptHead testCode agentInstructions skillRubric
  ++ sourceBlock
  ++ evalPromptTail

/-- A Python exception that the script does not catch.  The only modelled
kind is an I/O error raised by `open()`; it propagates out of
`process_code_file` and aborts a directory batch. -/
inductive PyError : Type where
  | ioError
deriving Repr, DecidableEq

/-- External collaborators of the script, fixed for one run:
`fs path` is the content of a readable file (`none` means `open(path)`
raises an `OSError`, and `os.path.exists(path)` is false);
`listDir d` lists the entries of directory `d` in the filesystem's
enumeration order; `parse code` is the external `ast.parse` boundary
(module body, or the `SyntaxError` message); `gateway key prompt` is the
external completion call made by `generate_tests_with_ai` (generated text,
or the text of the exception it raises); `timestamp` and `nowStr` are the
two `datetime.now().strftime` strings used in artifact names and headers. -/
structure Env : Type where
  fs : String → Option String
  listDir : String → List String
  parse : String → Except String (List PyNode)
  gateway : String → String → Except String String
  timestamp : String
  nowStr : String

/-- Result of `analyze_code_file`: either the unparsable-input record
`{'file': ..., 'error': 'Syntax error: ...', 'testable': False}` or the
full analysis record (`testable` is `True` exactly in the second case). -/
inductive AnalysisOutcome : Type where
  | unparsable (file : String) (errorMsg : String)
  | analyzed (a : SourceAnalysis)
deriving Repr, DecidableEq

/-- Script lines 39-98: `analyze_code_file` reads the file (uncaught
exception when unreadable), parses it (a `SyntaxError` yields the
non-testable record), and otherwise runs the pure analysis. -/
def analyze_code_file (env : Env) (filePath : String) :
    Except PyError AnalysisOutcome :=
  match env.fs filePath with
  | none => Except.error PyError.ioError
  | some code =>
    match env.parse code with
    | Except.error msg =>
        Except.ok (AnalysisOutcome.unparsable filePath ("Syntax error: " ++ msg))
    | Except.ok body =>
        Except.ok (AnalysisOutcome.analyzed (analysisOf filePath body code))

/-- Script lines 101-114: `load_agent_instructions` / `load_skill_rubric`
return the file content when the path exists and `""` otherwise. -/
def loadText (env : Env) (path : String) : String :=
  match env.fs path with
  | some s => s
  | none => ""

/-- One processing-result dictionary of the Generate workflow.  Exactly the
keys present in the corresponding Python dict are `some`: an `'error'`
result carries only `errorMsg`; `'completed'` carries `codePath`,
`testFile`, `analysisFile` and `analysis`; `'prompt_only'` carries
`codePath`, `promptFile` and `analysisFile`. -/
structure RunResult : Type where
  status : String
  codePath : Option String
  testFile : Option String
  analysisFile : Option String
  promptFile : Option String
  errorMsg : Option String
  analysis : Option SourceAnalysis
deriving Repr, DecidableEq

/-- Observable outcome of `process_code_file`: the returned result dict,
the files written (path, content) in write order, and the completion calls
(api key, prompt) made through `generate_tests_with_ai`. -/
structure ProcOutput : Type where
  result : RunResult
  written : List (String × String)
  gatewayCalls : List (String × String)
deriving Repr, DecidableEq

/-- Header block prepended to the model output in the generated test file
(script lines 388-390). -/
def generatedTestHeader (basename nowStr codePath : String) : String :=
  "\"\"\"\nGenerated Tests for " ++ basename ++ "\nGenerated: " ++ nowStr
  ++ "\nSource: " ++ codePath ++ "\n\"\"\"\n\n"

/-- The analysis-summary artifact (script lines 363-375): a fixed sequence
of `f.write` calls. -/
def analysisArtifact (basename codePath : String) (a : SourceAnalysis) :
    String :=
  "# Code Analysis: " ++ basename ++ "\n\n"
  ++ "**File**: " ++ codePath ++ "\n"
  ++ "**Lines**: " ++ toString a.lines ++ "\n"
  ++ "**Complexity**: " ++ toString a.complexity ++ "\n\n"
  ++ "## Functions (" ++ toString a.functions.length ++ ")\n"
  ++ concatAll (a.functions.map
      (fun f => "- " ++ f.name ++ "() at line " ++ toString f.line ++ "\n"))
  ++ "\n## Classes (" ++ toString a.classes.length ++ ")\n"
  ++ concatAll (a.classes.map
      (fun c => "- " ++ c.name ++ " at line " ++ toString c.line ++ "\n"
        ++ "  Methods: " ++ joinSep ", " c.methods ++ "\n"))

/-- Script lines 301-424: `process_code_file`.  The initial `open` raises
when the file is unreadable (nothing is caught there); an unparsable file
returns the `'error'` dict before any artifact is written; otherwise the
analysis artifact is written, then the branch on `if api_key:` either calls
the gateway once (wrapping only that call in `try/except`) or saves the
prompt and returns `'prompt_only'`. -/
def process_code_file (env : Env) (codePath outputDir : String)
    (apiKey : Option String) (agentPath skillPath : String) :
    Except PyError ProcOutput :=
  match env.fs codePath with
  | none => Except.error PyError.ioError
  | some codeContent =>
    match analyze_code_file env codePath with
    | Except.error e => Except.error e
    | Except.ok (AnalysisOutcome.unparsable _ msg) =>
        Except.ok ⟨⟨"error", none, none, none, none, some msg, none⟩, [], []⟩
    | Except.ok (AnalysisOutcome.analyzed analysis) =>
      let agentInstructions := loadText env agentPath
      let skillRubric := loadText env skillPath
      let prompt := create_test_generation_prompt codePath codeContent
        analysis agentInstructions skillRubric "pytest"
      let basename := pyStem codePath
      let analysisFile := outputDir ++ "/" ++ basename ++ "_analysis.txt"
      let analysisText := analysisArtifact basename codePath analysis
      if pyTruthy apiKey then
        let key := apiKey.getD ""
        match env.gateway key prompt with
        | Except.ok generatedTests =>
          let testFile := outputDir ++ "/test_" ++ basename ++ "_"
            ++ env.timestamp ++ ".py"
          let testText :=
            generatedTestHeader basename env.nowStr codePath ++ generatedTests
          Except.ok ⟨⟨"completed", some codePath, some testFile,
              some analysisFile, none, none, some analysis⟩,
            [(analysisFile, analysisText), (testFile, testText)],
            [(key, prompt)]⟩
        | Except.error msg =>
          Except.ok ⟨⟨"error", none, none, none, none, some msg, none⟩,
            [(analysisFile, analysisText)], [(key, prompt)]⟩
      else
        let promptFile := outputDir ++ "/" ++ basename ++ "_prompt.txt"
        Except.ok ⟨⟨"prompt_only", some codePath, none, some analysisFile,
            some promptFile, none, none⟩,
          [(analysisFile, analysisText), (promptFile, prompt)], []⟩

/-- Lexicographic comparison of character lists by Unicode code point:
Python string `<=`. -/
def charListLe : List Char → List Char → Bool
  | [], _ => true
  | _ :: _, [] => false
  | a :: as, b :: bs =>
    if a.toNat < b.toNat then true
    else if b.toNat < a.toNat then false
    else charListLe as bs

/-- Python string comparison (`s <= t` by code points).  `sorted(...)` on
`Path` values from one directory orders them exactly by this comparison of
their file names. -/
def stringLe (s t : String) : Bool := charListLe s.data t.data

/-- Insert into a `stringLe`-sorted list. -/
def insertSorted (s : String) : List String → List String
  | [] => [s]
  | t :: ts => if stringLe s t then s :: t :: ts else t :: insertSorted s ts

/-- Python `sorted(...)` on the file names (insertion sort; Python strings
that compare equal are identical, so stability is irrelevant). -/
def sortStrings : List String → List String
  | [] => []
  | s :: ss => insertSorted s (sortStrings ss)

/-- Filter of `Path(directory).glob("*.py")`: directory entries whose name
ends with `".py"`. -/
def pyMatches (name : String) : Bool := List.isSuffixOf ".py".data name.data

/-- The directory entries matching `*.py`, still in the filesystem's
enumeration order. -/
def matchingFiles (env : Env) (directory : String) : List String :=
  (env.listDir directory).filter pyMatches

/-- The `for py_file in py_files:` loop of `batch_process_directory`
(script lines 549-558): results are appended in order; an uncaught
exception from `process_code_file` propagates and aborts the loop. -/
def runBatch (env : Env) (outputDir : String) (apiKey : Option String)
    (agentPath skillPath : String) :
    List String → Except PyError (List ProcOutput)
  | [] => Except.ok []
  | path :: rest =>
    match process_code_file env path outputDir apiKey agentPath skillPath with
    | Except.error e => Except.error e
    | Except.ok r =>
      match runBatch env outputDir apiKey agentPath skillPath rest with
      | Except.error e => Except.error e
      | Except.ok rs => Except.ok (r :: rs)

/-- Script lines 532-560: `batch_process_directory` globs `*.py` in the
directory, sorts the paths, and processes them sequentially.  (The
empty-directory early return produces `[]`, which coincides with running
the loop on an empty list.) -/
def batch_process_directory (env : Env) (directory outputDir : String)
    (apiKey : Option String) (agentPath skillPath : String) :
    Except PyError (List ProcOutput) :=
  let pyFiles := sortStrings (matchingFiles env directory)
  runBatch env outputDir apiKey agentPath skillPath
    (pyFiles.map (fun name => directory ++ "/" ++ name))

/-! ### Lemmas about the breadth-first walk -/

/-- Concatenated children of a queue of nodes: the nodes that one full pass
over the queue appends at its back. -/
def childQueue : List PyNode → List PyNode
  | [] => []
  | n :: rest => n.children ++ childQueue rest

/-- Source text of the private-class scenario:
`"class _Hidden:\n    def visible(self): pass\n    def _private(self): pass\n"`. -/
def hiddenClassSource : String :=
  "class _Hidden:\n    def visible(self): pass\n    def _private(self): pass\n"

/-- The parse of `hiddenClassSource`: one class `_Hidden` (line 1) with a
public method `visible` (line 2) and a private method `_private` (line 3). -/
def hiddenClassBody : List PyNode :=
  [PyNode.classDef "_Hidden" 1
    [PyNode.functionDef "visible" 2 ["self"] [PyNode.otherStmt []],
     PyNode.functionDef "_private" 3 ["self"] [PyNode.otherStmt []]]]

/-- Source text with a nested function between two top-level ones:
`"def outer():\n    def inner():\n        pass\n\ndef later():\n    pass\n"`. -/
def nestedSource : String :=
  "def outer():\n    def inner():\n        pass\n\ndef later():\n    pass\n"

/-- The parse of `nestedSource`: `outer` (line 1) containing `inner`
(line 2), then `later` (line 5). -/
def nestedBody : List PyNode :=
  [PyNode.functionDef "outer" 1 []
    [PyNode.functionDef "inner" 2 [] [PyNode.otherStmt []]],
   PyNode.functionDef "later" 5 [] [PyNode.otherStmt []]]

/-- Source text of the end-to-end scenario of claim C3:
`"def add(a, b):\n    return a + b\n"`. -/
def addSource : String := "def add(a, b):\n    return a + b\n"

/-- The parse of `addSource`: one function `add` at line 1 with positional
arguments `a`, `b` and a single `return` statement. -/
def addBody : List PyNode :=
  [PyNode.functionDef "add" 1 ["a", "b"] [PyNode.otherStmt []]]

/-! ### Async declarations are invisible to the analyzer -/

mutual

/-- Replace every `AsyncFunctionDef` node by an anonymous statement with
the same child statements.  The analyzer's `isinstance(..., FunctionDef)`
tests treat the two shapes identically (both fail), so this erasure must
not change its output. -/
def eraseAsync : PyNode → PyNode
  | PyNode.functionDef name line args b =>
      PyNode.functionDef name line args (eraseAsyncList b)
  | PyNode.asyncFunctionDef _ _ _ b => PyNode.otherStmt (eraseAsyncList b)
  | PyNode.classDef name line b => PyNode.classDef name line (eraseAsyncList b)
  | PyNode.exprConst s => PyNode.exprConst s
  | PyNode.otherStmt b => PyNode.otherStmt (eraseAsyncList b)

/-- Pointwise `eraseAsync` on a forest. -/
def eraseAsyncList : List PyNode → List PyNode
  | [] => []
  | n :: ns => eraseAsync n :: eraseAsyncList ns

end

mutual

/-- Decides that a statement subtree contains no `FunctionDef` and no
`ClassDef` node: every declaration in it is an async function. -/
def noSyncDecl : PyNode → Bool
  | PyNode.functionDef _ _ _ _ => false
  | PyNode.asyncFunctionDef _ _ _ b => noSyncDeclList b
  | PyNode.classDef _ _ _ => false
  | PyNode.exprConst _ => true
  | PyNode.otherStmt b => noSyncDeclList b

/-- Decides `noSyncDecl` over a forest. -/
def noSyncDeclList : List PyNode → Bool
  | [] => true
  | n :: ns => noSyncDecl n && noSyncDeclList ns

end

/-- The environment with the enumeration order of one directory replaced:
used to state that batch processing does not depend on that order. -/
def withListDir (env : Env) (dir : String) (l : List String) : Env :=
  ⟨env.fs, fun d => if d == dir then l else env.listDir d, env.parse,
    env.gateway, env.timestamp, env.nowStr⟩

/-- Batch fixture: directory `d` holds `a.py` and `c.py` (readable) and
`b.py` (unreadable: `open` raises); parsing always succeeds, no gateway. -/
def envBad : Env :=
  ⟨fun p => if p == "d/a.py" then some "x = 1\n"
    else if p == "d/c.py" then some "y = 2\n" else none,
   fun d => if d == "d" then ["a.py", "b.py", "c.py"] else [],
   fun _ => Except.ok [PyNode.otherStmt []],
   fun _ _ => Except.error "no client",
   "20250101_000000", "2025-01-01 00:00:00"⟩

/-- Boolean prefix test on character lists (evaluates by kernel
reduction). -/
def prefixEq : List Char → List Char → Bool
  | [], _ => true
  | _ :: _, [] => false
  | a :: as, b :: bs => a == b && prefixEq as bs

/-- Boolean contiguous-substring test on character lists. -/
def containsSub (pat : List Char) : List Char → Bool
  | [] => pat.isEmpty
  | c :: rest => prefixEq pat (c :: rest) || containsSub pat rest

/-- Single-file fixture for the no-credential path: `sample-code/calc.py`
is readable and parses to one function `add`. -/
def envPrompt : Env :=
  ⟨fun p => if p == "sample-code/calc.py"
      then some "def add(a, b):\n    return a + b\n" else none,
   fun _ => [],
   fun c => if c == "def add(a, b):\n    return a + b\n"
      then Except.ok [PyNode.functionDef "add" 1 ["a", "b"]
        [PyNode.otherStmt []]]
      else Except.error "invalid syntax",
   fun _ _ => Except.error "no client",
   "20250101_000000", "2025-01-01 00:00:00"⟩

/-- Single-file fixture with a failing gateway: `d/a.py` readable and
parsable, every completion call raises `Connection error`. -/
def envKey : Env :=
  ⟨fun p => if p == "d/a.py" then some "x = 1\n" else none,
   fun d => if d == "d" then ["a.py"] else [],
   fun _ => Except.ok [PyNode.otherStmt []],
   fun _ _ => Except.error "Connection error",
   "20250101_000000", "2025-01-01 00:00:00"⟩

/-- Batch fixture for the sorting claim: directory `d` enumerates
`c.py, note.txt, a.py` in filesystem order; both Python files readable. -/
def envSort : Env :=
  ⟨fun p => if p == "d/a.py" then some "x = 1\n"
    else if p == "d/c.py" then some "y = 2\n" else none,
   fun d => if d == "d" then ["c.py", "note.txt", "a.py"] else [],
   fun _ => Except.ok [PyNode.otherStmt []],
   fun _ _ => Except.error "no client",
   "20250101_000000", "2025-01-01 00:00:00"⟩

/-! ### Theorems -/

theorem size_eq_one_add_children (n : PyNode) :
    size n = 1 + sizeList n.children := by
  cases n <;> rfl

theorem sizeList_append (a b : List PyNode) :
    sizeList (a ++ b) = sizeList a + sizeList b := by
  induction a with
  | nil => simp [sizeList]
  | cons n ns ih => simp [sizeList, ih]; omega

theorem sizeList_cons_eq (n : PyNode) (rest : List PyNode) :
    sizeList (n :: rest) = sizeList (rest ++ n.children) + 1 := by
  rw [sizeList, sizeList_append, size_eq_one_add_children]
  omega

theorem walk_nil : walk [] = [] := rfl

theorem walk_cons (n : PyNode) (rest : List PyNode) :
    walk (n :: rest) = n :: walk (rest ++ n.children) := by
  rw [walk, sizeList_cons_eq]
  rfl

theorem childQueue_append (a b : List PyNode) :
    childQueue (a ++ b) = childQueue a ++ childQueue b := by
  induction a with
  | nil => simp [childQueue]
  | cons n ns ih => simp [childQueue, ih]

theorem walk_append (p : List PyNode) :
    ∀ q : List PyNode, walk (p ++ q) = p ++ walk (q ++ childQueue p) := by
  induction p with
  | nil => intro q; simp [childQueue]
  | cons n p ih =>
    intro q
    rw [List.cons_append, walk_cons, List.append_assoc, ih (q ++ n.children),
      childQueue, List.cons_append, List.append_assoc]

/-- Level decomposition of the breadth-first walk: the queue is emitted
as-is, followed by the walk of all its children. -/
theorem walk_levels (q : List PyNode) :
    walk q = q ++ walk (childQueue q) := by
  have h := walk_append q []
  simpa using h

theorem analysisOf_functions (file : String) (body : List PyNode)
    (code : String) :
    (analysisOf file body code).functions
      = body.filterMap fnInfo ++ (walk (childQueue body)).filterMap fnInfo := by
  show (walk body).filterMap fnInfo = _
  rw [walk_levels, List.filterMap_append]

theorem analysisOf_classes (file : String) (body : List PyNode)
    (code : String) :
    (analysisOf file body code).classes
      = body.filterMap clsInfo ++ (walk (childQueue body)).filterMap clsInfo := by
  show (walk body).filterMap clsInfo = _
  rw [walk_levels, List.filterMap_append]

/-! ### Lemmas about the collectors -/

theorem fnInfo_no_underscore {n : PyNode} {fi : FunctionInfo}
    (h : fnInfo n = some fi) : startsWithUnderscore fi.name = false := by
  cases n with
  | functionDef name line args body =>
    by_cases hu : startsWithUnderscore name
    · simp [fnInfo, hu] at h
    · simp [fnInfo, hu] at h
      cases h
      simpa using hu
  | asyncFunctionDef name line args body => simp [fnInfo] at h
  | classDef name line body => simp [fnInfo] at h
  | exprConst s => simp [fnInfo] at h
  | otherStmt body => simp [fnInfo] at h

theorem methodName_no_underscore {n : PyNode} {m : String}
    (h : methodName n = some m) : startsWithUnderscore m = false := by
  cases n with
  | functionDef name line args body =>
    by_cases hu : startsWithUnderscore name
    · simp [methodName, hu] at h
    · simp [methodName, hu] at h
      cases h
      simpa using hu
  | asyncFunctionDef name line args body => simp [methodName] at h
  | classDef name line body => simp [methodName] at h
  | exprConst s => simp [methodName] at h
  | otherStmt body => simp [methodName] at h

theorem clsInfo_methods_no_underscore {n : PyNode} {c : ClassInfo}
    (h : clsInfo n = some c) :
    ∀ m ∈ c.methods, startsWithUnderscore m = false := by
  cases n with
  | classDef name line body =>
    simp only [clsInfo, Option.some.injEq] at h
    intro m hm
    rw [← h] at hm
    simp only [List.mem_filterMap] at hm
    obtain ⟨item, _, hitem⟩ := hm
    exact methodName_no_underscore hitem
  | functionDef name line args body => simp [clsInfo] at h
  | asyncFunctionDef name line args body => simp [clsInfo] at h
  | exprConst s => simp [clsInfo] at h
  | otherStmt body => simp [clsInfo] at h

/-! ### Analyzer claims -/

/-- Claim C5.  For every parsable source text, the analyzer's
`complexityScore` equals the number of collected functions plus two times
the number of collected classes (script line 89:
`complexity = len(functions) + len(classes) * 2`). -/
theorem claim_C5 (file : String) (body : List PyNode) (code : String) :
    (analysisOf file body code).complexity
      = (analysisOf file body code).functions.length
        + 2 * (analysisOf file body code).classes.length := by
  show ((walk body).filterMap fnInfo).length
      + ((walk body).filterMap clsInfo).length * 2
    = ((walk body).filterMap fnInfo).length
      + 2 * ((walk body).filterMap clsInfo).length
  omega

/-- Claim C1, amended.  A function-like declaration whose name starts with
the private-name marker never appears in `functions`, and a method whose
name starts with the marker never appears in any class's method names; but
class entries themselves are not filtered: every class declaration in the
module body appears in `classes`, whatever its name.  (The claim's further
assertion that a private-named class never appears as a class entry is
refuted by `claim_C1_counterexample`.) -/
theorem claim_C1_amended (file : String) (body : List PyNode) (code : String) :
    (∀ fi ∈ (analysisOf file body code).functions,
      startsWithUnderscore fi.name = false)
    ∧ (∀ c ∈ (analysisOf file body code).classes,
        ∀ m ∈ c.methods, startsWithUnderscore m = false)
    ∧ (∀ name line cbody, PyNode.classDef name line cbody ∈ body →
        ∃ c ∈ (analysisOf file body code).classes,
          c.name = name ∧ c.line = line) := by
  refine ⟨?_, ?_, ?_⟩
  · intro fi hfi
    have hfi' : fi ∈ (walk body).filterMap fnInfo := hfi
    rw [List.mem_filterMap] at hfi'
    obtain ⟨n, _, hn⟩ := hfi'
    exact fnInfo_no_underscore hn
  · intro c hc
    have hc' : c ∈ (walk body).filterMap clsInfo := hc
    rw [List.mem_filterMap] at hc'
    obtain ⟨n, _, hn⟩ := hc'
    exact clsInfo_methods_no_underscore hn
  · intro name line cbody hmem
    have hwalk : PyNode.classDef name line cbody ∈ walk body := by
      rw [walk_levels]
      exact List.mem_append_left _ hmem
    refine ⟨⟨name, line, cbody.filterMap methodName, get_docstring cbody⟩,
      ?_, rfl, rfl⟩
    show _ ∈ (walk body).filterMap clsInfo
    rw [List.mem_filterMap]
    exact ⟨PyNode.classDef name line cbody, hwalk, rfl⟩

/-- Claim C1, counterexample.  The class declaration `_Hidden` is named
with the private-name marker, yet it does appear in the analyzer's
`classes` output: only functions and methods are filtered by the marker,
class entries are not. -/
theorem claim_C1_counterexample :
    startsWithUnderscore "_Hidden" = true
    ∧ (analysisOf "hidden.py" hiddenClassBody hiddenClassSource).classes.map
        (fun c => c.name) = ["_Hidden"]
    ∧ (analysisOf "hidden.py" hiddenClassBody hiddenClassSource).classes.map
        (fun c => c.methods) = [["visible"]] := by
  decide

/-- Claim C1, witness for the amended theorem at the `_Hidden` scenario:
the collected function entry `visible` and method name `visible` are not
underscore-named, and the class `_Hidden` of the body appears in
`classes`. -/
theorem claim_C1_witness :
    (⟨"visible", 2, ["self"], none⟩ : FunctionInfo)
        ∈ (analysisOf "hidden.py" hiddenClassBody hiddenClassSource).functions
    ∧ startsWithUnderscore "visible" = false
    ∧ (∃ c ∈ (analysisOf "hidden.py" hiddenClassBody hiddenClassSource).classes,
        c.name = "_Hidden" ∧ c.line = 1) := by
  have hmem : (⟨"visible", 2, ["self"], none⟩ : FunctionInfo)
      ∈ (analysisOf "hidden.py" hiddenClassBody hiddenClassSource).functions := by
    decide
  have hcls : PyNode.classDef "_Hidden" 1
      [PyNode.functionDef "visible" 2 ["self"] [PyNode.otherStmt []],
       PyNode.functionDef "_private" 3 ["self"] [PyNode.otherStmt []]]
      ∈ hiddenClassBody := List.mem_cons_self _ _
  exact ⟨hmem,
    (claim_C1_amended "hidden.py" hiddenClassBody hiddenClassSource).1 _ hmem,
    (claim_C1_amended "hidden.py" hiddenClassBody hiddenClassSource).2.2
      "_Hidden" 1 _ hcls⟩

/-- Claim C2, amended.  The analyzer lists declarations in the
breadth-first order of `ast.walk`, not in source order: the top-level
declarations of the module body come first, in source order, followed by
every nested declaration (which therefore appears after top-level
declarations on later lines; see `claim_C2_counterexample`). -/
theorem claim_C2_amended (file : String) (body : List PyNode) (code : String) :
    (analysisOf file body code).functions
      = body.filterMap fnInfo ++ (walk (childQueue body)).filterMap fnInfo
    ∧ (analysisOf file body code).classes
      = body.filterMap clsInfo ++ (walk (childQueue body)).filterMap clsInfo :=
  ⟨analysisOf_functions file body code, analysisOf_classes file body code⟩

/-- Claim C2, counterexample.  On `nestedSource` the analyzer lists
`outer, later, inner` with declaration lines `1, 5, 2`: the nested
function `inner` comes after the later top-level function `later`, so the
output is not in source order. -/
theorem claim_C2_counterexample :
    (analysisOf "nested.py" nestedBody nestedSource).functions.map
        (fun f => f.name) = ["outer", "later", "inner"]
    ∧ (analysisOf "nested.py" nestedBody nestedSource).functions.map
        (fun f => f.line) = [1, 5, 2]
    ∧ ¬ List.Pairwise (fun a b => a ≤ b)
        ((analysisOf "nested.py" nestedBody nestedSource).functions.map
          (fun f => f.line)) := by
  refine ⟨by decide, by decide, ?_⟩
  rw [show (analysisOf "nested.py" nestedBody nestedSource).functions.map
      (fun f => f.line) = [1, 5, 2] from by decide]
  decide

/-- Claim C3, amended.  On the source `"def add(a, b):\n    return a + b\n"`
the analyzer returns exactly one function entry `add` with parameter names
`["a", "b"]`, an empty classes list and complexityScore 1 — but lineCount 3,
not 2: the text ends in a newline, and `len(code.split('\n'))` counts the
trailing empty part. -/
theorem claim_C3_amended (filePath : String) :
    analysisOf filePath addBody addSource
      = ⟨filePath, [⟨"add", 1, ["a", "b"], none⟩], [], 1, 3⟩ := rfl

/-- Claim C3, counterexample.  The claimed lineCount 2 is wrong: the
analyzer reports 3 lines for `"def add(a, b):\n    return a + b\n"`. -/
theorem claim_C3_counterexample :
    (analysisOf "add.py" addBody addSource).lines = 3
    ∧ ¬ (analysisOf "add.py" addBody addSource).lines = 2 := by
  decide

theorem eraseAsyncList_append (a b : List PyNode) :
    eraseAsyncList (a ++ b) = eraseAsyncList a ++ eraseAsyncList b := by
  induction a with
  | nil => rfl
  | cons n ns ih => simp [eraseAsyncList, ih]

theorem children_eraseAsync (n : PyNode) :
    (eraseAsync n).children = eraseAsyncList n.children := by
  cases n <;> rfl

theorem get_docstring_erase (b : List PyNode) :
    get_docstring (eraseAsyncList b) = get_docstring b := by
  cases b with
  | nil => rfl
  | cons h t => cases h <;> rfl

theorem fnInfo_erase (n : PyNode) : fnInfo (eraseAsync n) = fnInfo n := by
  cases n with
  | functionDef name line args b =>
    simp only [eraseAsync, fnInfo, get_docstring_erase]
  | asyncFunctionDef name line args b => rfl
  | classDef name line b => rfl
  | exprConst s => rfl
  | otherStmt b => rfl

theorem methodName_erase (n : PyNode) :
    methodName (eraseAsync n) = methodName n := by
  cases n <;> rfl

theorem filterMap_methodName_erase (l : List PyNode) :
    (eraseAsyncList l).filterMap methodName = l.filterMap methodName := by
  induction l with
  | nil => rfl
  | cons n ns ih => simp [eraseAsyncList, List.filterMap_cons, methodName_erase, ih]

theorem clsInfo_erase (n : PyNode) : clsInfo (eraseAsync n) = clsInfo n := by
  cases n with
  | classDef name line b =>
    simp only [eraseAsync, clsInfo, get_docstring_erase,
      filterMap_methodName_erase]
  | functionDef name line args b => rfl
  | asyncFunctionDef name line args b => rfl
  | exprConst s => rfl
  | otherStmt b => rfl

theorem filterMap_fnInfo_erase (l : List PyNode) :
    (eraseAsyncList l).filterMap fnInfo = l.filterMap fnInfo := by
  induction l with
  | nil => rfl
  | cons n ns ih => simp [eraseAsyncList, List.filterMap_cons, fnInfo_erase, ih]

theorem filterMap_clsInfo_erase (l : List PyNode) :
    (eraseAsyncList l).filterMap clsInfo = l.filterMap clsInfo := by
  induction l with
  | nil => rfl
  | cons n ns ih => simp [eraseAsyncList, List.filterMap_cons, clsInfo_erase, ih]

theorem walk_erase_fuel : ∀ (k : Nat) (q : List PyNode), sizeList q ≤ k →
    walk (eraseAsyncList q) = eraseAsyncList (walk q) := by
  intro k
  induction k with
  | zero =>
    intro q hq
    cases q with
    | nil => rfl
    | cons n rest => rw [sizeList_cons_eq] at hq; omega
  | succ k ih =>
    intro q hq
    cases q with
    | nil => rfl
    | cons n rest =>
      show walk (eraseAsync n :: eraseAsyncList rest) = _
      rw [walk_cons, walk_cons, children_eraseAsync, ← eraseAsyncList_append,
        ih (rest ++ n.children) (by rw [sizeList_cons_eq] at hq; omega)]
      rfl

theorem walk_eraseAsyncList (q : List PyNode) :
    walk (eraseAsyncList q) = eraseAsyncList (walk q) :=
  walk_erase_fuel (sizeList q) q (Nat.le_refl _)

theorem noSyncDeclList_append (a b : List PyNode) :
    noSyncDeclList (a ++ b) = (noSyncDeclList a && noSyncDeclList b) := by
  induction a with
  | nil => rfl
  | cons n ns ih => simp [noSyncDeclList, ih, Bool.and_assoc]

theorem noSyncDecl_children {n : PyNode} (h : noSyncDecl n = true) :
    noSyncDeclList n.children = true := by
  cases n with
  | functionDef name line args b => simp [noSyncDecl] at h
  | asyncFunctionDef name line args b => exact h
  | classDef name line b => simp [noSyncDecl] at h
  | exprConst s => rfl
  | otherStmt b => exact h

theorem noSyncDecl_fnInfo {n : PyNode} (h : noSyncDecl n = true) :
    fnInfo n = none := by
  cases n with
  | functionDef name line args b => simp [noSyncDecl] at h
  | asyncFunctionDef name line args b => rfl
  | classDef name line b => simp [noSyncDecl] at h
  | exprConst s => rfl
  | otherStmt b => rfl

theorem noSyncDecl_clsInfo {n : PyNode} (h : noSyncDecl n = true) :
    clsInfo n = none := by
  cases n with
  | functionDef name line args b => simp [noSyncDecl] at h
  | asyncFunctionDef name line args b => rfl
  | classDef name line b => simp [noSyncDecl] at h
  | exprConst s => rfl
  | otherStmt b => rfl

theorem noSync_walk : ∀ (k : Nat) (q : List PyNode), sizeList q ≤ k →
    noSyncDeclList q = true →
    (walk q).filterMap fnInfo = [] ∧ (walk q).filterMap clsInfo = [] := by
  intro k
  induction k with
  | zero =>
    intro q hq _
    cases q with
    | nil => exact ⟨rfl, rfl⟩
    | cons n rest => rw [sizeList_cons_eq] at hq; omega
  | succ k ih =>
    intro q hq hn
    cases q with
    | nil => exact ⟨rfl, rfl⟩
    | cons n rest =>
      rw [noSyncDeclList, Bool.and_eq_true] at hn
      obtain ⟨hn1, hn2⟩ := hn
      have hn' : noSyncDeclList (rest ++ n.children) = true := by
        rw [noSyncDeclList_append, hn2, noSyncDecl_children hn1]
        rfl
      obtain ⟨h1, h2⟩ :=
        ih (rest ++ n.children) (by rw [sizeList_cons_eq] at hq; omega) hn'
      rw [walk_cons]
      constructor
      · simp [List.filterMap_cons, noSyncDecl_fnInfo hn1, h1]
      · simp [List.filterMap_cons, noSyncDecl_clsInfo hn1, h2]

/-- Claim C9.  Async function declarations never appear in the analyzer's
output: erasing every `AsyncFunctionDef` wrapper (keeping its nested
statements) leaves the whole analysis unchanged, and a module all of whose
declarations are async functions yields empty `functions` and `classes`
and complexityScore 0, regardless of names. -/
theorem claim_C9 (file : String) (body : List PyNode) (code : String) :
    analysisOf file (eraseAsyncList body) code = analysisOf file body code
    ∧ (noSyncDeclList body = true →
        (analysisOf file body code).functions = []
        ∧ (analysisOf file body code).classes = []
        ∧ (analysisOf file body code).complexity = 0) := by
  constructor
  · have hf : (walk (eraseAsyncList body)).filterMap fnInfo
        = (walk body).filterMap fnInfo := by
      rw [walk_eraseAsyncList, filterMap_fnInfo_erase]
    have hc : (walk (eraseAsyncList body)).filterMap clsInfo
        = (walk body).filterMap clsInfo := by
      rw [walk_eraseAsyncList, filterMap_clsInfo_erase]
    simp only [analysisOf]
    rw [hf, hc]
  · intro hn
    obtain ⟨h1, h2⟩ := noSync_walk (sizeList body) body (Nat.le_refl _) hn
    refine ⟨h1, h2, ?_⟩
    show ((walk body).filterMap fnInfo).length
      + ((walk body).filterMap clsInfo).length * 2 = 0
    rw [h1, h2]
    rfl

/-! ### Lemmas about the lexicographic sort -/

theorem charListLe_total (a : List Char) :
    ∀ b, charListLe a b = true ∨ charListLe b a = true := by
  induction a with
  | nil => intro b; left; rfl
  | cons x xs ih =>
    intro b
    cases b with
    | nil => right; rfl
    | cons y ys =>
      by_cases h1 : x.toNat < y.toNat
      · left; simp [charListLe, h1]
      · by_cases h2 : y.toNat < x.toNat
        · right; simp [charListLe, h1, h2]
        · rcases ih ys with h | h
          · left; simp [charListLe, h1, h2, h]
          · right; simp [charListLe, h1, h2, h]

theorem charListLe_trans {a : List Char} :
    ∀ {b c}, charListLe a b = true → charListLe b c = true →
      charListLe a c = true := by
  induction a with
  | nil => intro b c _ _; rfl
  | cons x xs ih =>
    intro b c h1 h2
    cases b with
    | nil => simp [charListLe] at h1
    | cons y ys =>
      cases c with
      | nil => simp [charListLe] at h2
      | cons z zs =>
        by_cases hxy : x.toNat < y.toNat
        · by_cases hyz : y.toNat < z.toNat
          · simp [charListLe, show x.toNat < z.toNat by omega]
          · by_cases hzy : z.toNat < y.toNat
            · simp [charListLe, hyz, hzy] at h2
            · simp [charListLe, show x.toNat < z.toNat by omega]
        · by_cases hyx : y.toNat < x.toNat
          · simp [charListLe, hxy, hyx] at h1
          · simp [charListLe, hxy, hyx] at h1
            by_cases hyz : y.toNat < z.toNat
            · simp [charListLe, show x.toNat < z.toNat by omega]
            · by_cases hzy : z.toNat < y.toNat
              · simp [charListLe, hyz, hzy] at h2
              · simp [charListLe, hyz, hzy] at h2
                have e1 : ¬ x.toNat < z.toNat := by omega
                have e2 : ¬ z.toNat < x.toNat := by omega
                simp [charListLe, e1, e2]
                exact ih h1 h2

theorem charListLe_antisymm {a : List Char} :
    ∀ {b}, charListLe a b = true → charListLe b a = true → a = b := by
  induction a with
  | nil =>
    intro b _ h2
    cases b with
    | nil => rfl
    | cons y ys => simp [charListLe] at h2
  | cons x xs ih =>
    intro b h1 h2
    cases b with
    | nil => simp [charListLe] at h1
    | cons y ys =>
      by_cases hxy : x.toNat < y.toNat
      · simp [charListLe, hxy, show ¬ y.toNat < x.toNat by omega] at h2
      · by_cases hyx : y.toNat < x.toNat
        · simp [charListLe, hxy, hyx] at h1
        · simp [charListLe, hxy, hyx] at h1 h2
          have hxyc : x = y := by
            have hn : x.toNat = y.toNat := by omega
            exact Char.eq_of_val_eq (UInt32.ext hn)
          rw [hxyc, ih h1 h2]

theorem stringLe_trans {a b c : String} (h1 : stringLe a b = true)
    (h2 : stringLe b c = true) : stringLe a c = true :=
  charListLe_trans h1 h2

theorem stringLe_total (a b : String) :
    stringLe a b = true ∨ stringLe b a = true :=
  charListLe_total a.data b.data

theorem stringLe_antisymm {a b : String} (h1 : stringLe a b = true)
    (h2 : stringLe b a = true) : a = b := by
  cases a with
  | mk da =>
    cases b with
    | mk db =>
      have hd : da = db := charListLe_antisymm h1 h2
      rw [hd]

theorem charListLe_append_left (p a b : List Char) :
    charListLe (p ++ a) (p ++ b) = charListLe a b := by
  induction p with
  | nil => rfl
  | cons x xs ih => simp [charListLe, ih]

theorem stringLe_append_left (p a b : String) :
    stringLe (p ++ a) (p ++ b) = stringLe a b := by
  show charListLe (p ++ a).data (p ++ b).data = _
  rw [String.data_append, String.data_append, charListLe_append_left]
  rfl

theorem insertSorted_perm (s : String) (l : List String) :
    List.Perm (insertSorted s l) (s :: l) := by
  induction l with
  | nil => exact List.Perm.refl _
  | cons t ts ih =>
    rw [insertSorted]
    by_cases h : stringLe s t
    · rw [if_pos h]
    · rw [if_neg h]
      exact (ih.cons t).trans (List.Perm.swap s t ts)

theorem sortStrings_perm (l : List String) :
    List.Perm (sortStrings l) l := by
  induction l with
  | nil => exact List.Perm.refl _
  | cons s ss ih =>
    exact (insertSorted_perm s (sortStrings ss)).trans (ih.cons s)

theorem insertSorted_pairwise {s : String} {l : List String}
    (h : List.Pairwise (fun a b => stringLe a b = true) l) :
    List.Pairwise (fun a b => stringLe a b = true) (insertSorted s l) := by
  induction l with
  | nil => simp [insertSorted]
  | cons t ts ih =>
    rw [insertSorted]
    obtain ⟨ht, hts⟩ := List.pairwise_cons.mp h
    by_cases hst : stringLe s t
    · rw [if_pos hst, List.pairwise_cons]
      refine ⟨?_, h⟩
      intro b hb
      rcases List.mem_cons.mp hb with rfl | hb'
      · exact hst
      · exact stringLe_trans hst (ht b hb')
    · rw [if_neg hst, List.pairwise_cons]
      refine ⟨?_, ih hts⟩
      intro b hb
      have hb' := (insertSorted_perm s ts).mem_iff.mp hb
      rcases List.mem_cons.mp hb' with hbs | hbts
      · rcases stringLe_total s t with hc | hc
        · exact absurd hc hst
        · rw [hbs]
          exact hc
      · exact ht b hbts

theorem sortStrings_pairwise (l : List String) :
    List.Pairwise (fun a b => stringLe a b = true) (sortStrings l) := by
  induction l with
  | nil => exact List.Pairwise.nil
  | cons s ss ih => exact insertSorted_pairwise ih

theorem sortStrings_eq_of_perm {l₁ l₂ : List String}
    (h : List.Perm l₁ l₂) : sortStrings l₁ = sortStrings l₂ := by
  haveI : IsAntisymm String (fun a b => stringLe a b = true) :=
    ⟨fun _ _ h1 h2 => stringLe_antisymm h1 h2⟩
  exact List.eq_of_perm_of_sorted
    (((sortStrings_perm l₁).trans h).trans (sortStrings_perm l₂).symm)
    (sortStrings_pairwise l₁) (sortStrings_pairwise l₂)

/-- Claim C9, witness: a module whose only declaration is the public async
function `fetch` (with a nested public sync helper inside it erased —
kept) yields `functions` possibly nonempty only from sync declarations;
here the body is a single async function with an empty body, so the
analysis is empty and the complexity is 0. -/
theorem claim_C9_witness :
    noSyncDeclList [PyNode.asyncFunctionDef "fetch" 1 [] [PyNode.otherStmt []]]
        = true
    ∧ (analysisOf "async.py"
        [PyNode.asyncFunctionDef "fetch" 1 [] [PyNode.otherStmt []]]
        "async def fetch():\n    pass\n").functions = []
    ∧ (analysisOf "async.py"
        [PyNode.asyncFunctionDef "fetch" 1 [] [PyNode.otherStmt []]]
        "async def fetch():\n    pass\n").complexity = 0 :=
  ⟨by decide,
    ((claim_C9 "async.py"
      [PyNode.asyncFunctionDef "fetch" 1 [] [PyNode.otherStmt []]]
      "async def fetch():\n    pass\n").2 (by decide)).1,
    ((claim_C9 "async.py"
      [PyNode.asyncFunctionDef "fetch" 1 [] [PyNode.otherStmt []]]
      "async def fetch():\n    pass\n").2 (by decide)).2.2⟩

/-! ### Lemmas about the orchestrator -/

theorem process_err_of_unreadable (env : Env) (p outDir : String)
    (apiKey : Option String) (ap sp : String) (h : env.fs p = none) :
    process_code_file env p outDir apiKey ap sp
      = Except.error PyError.ioError := by
  unfold process_code_file
  rw [h]

theorem process_ok_of_readable (env : Env) (p outDir : String)
    (apiKey : Option String) (ap sp c : String) (h : env.fs p = some c) :
    ∃ o, process_code_file env p outDir apiKey ap sp = Except.ok o := by
  simp only [process_code_file, analyze_code_file, h]
  cases hp : env.parse c with
  | error msg => exact ⟨_, rfl⟩
  | ok body =>
    cases hk : pyTruthy apiKey
    · exact ⟨_, rfl⟩
    · simp only [if_true]
      cases hg : env.gateway (apiKey.getD "")
          (create_test_generation_prompt p c (analysisOf p body c)
            (loadText env ap) (loadText env sp) "pytest") with
      | ok t => exact ⟨_, rfl⟩
      | error msg => exact ⟨_, rfl⟩

theorem runBatch_length (env : Env) (outDir : String) (apiKey : Option String)
    (ap sp : String) :
    ∀ (paths : List String) (results : List ProcOutput),
      runBatch env outDir apiKey ap sp paths = Except.ok results →
      results.length = paths.length := by
  intro paths
  induction paths with
  | nil =>
    intro results h
    simp only [runBatch] at h
    injection h with h'
    rw [← h']
    rfl
  | cons q rest ih =>
    intro results h
    rw [runBatch] at h
    cases hq : process_code_file env q outDir apiKey ap sp with
    | error e => rw [hq] at h; cases h
    | ok r =>
      rw [hq] at h
      cases hrest : runBatch env outDir apiKey ap sp rest with
      | error e => rw [hrest] at h; cases h
      | ok rs =>
        rw [hrest] at h
        injection h with h'
        rw [← h']
        simp [ih rs hrest]

theorem runBatch_error_of_unreadable (env : Env) (outDir : String)
    (apiKey : Option String) (ap sp : String) :
    ∀ (paths : List String) (p : String), p ∈ paths → env.fs p = none →
      runBatch env outDir apiKey ap sp paths
        = Except.error PyError.ioError := by
  intro paths
  induction paths with
  | nil =>
    intro p hp _
    exact absurd hp (List.not_mem_nil p)
  | cons q rest ih =>
    intro p hp hnone
    rw [runBatch]
    rcases List.mem_cons.mp hp with hpq | htail
    · rw [hpq] at hnone
      rw [process_err_of_unreadable env q outDir apiKey ap sp hnone]
    · cases hq : env.fs q with
      | none => rw [process_err_of_unreadable env q outDir apiKey ap sp hq]
      | some c =>
        obtain ⟨o, ho⟩ := process_ok_of_readable env q outDir apiKey ap sp c hq
        rw [ho, ih p htail hnone]

theorem runBatch_ok_of_readable (env : Env) (outDir : String)
    (apiKey : Option String) (ap sp : String) :
    ∀ paths : List String, (∀ p ∈ paths, env.fs p ≠ none) →
      ∃ results, runBatch env outDir apiKey ap sp paths = Except.ok results
        ∧ results.length = paths.length := by
  intro paths
  induction paths with
  | nil => intro _; exact ⟨[], rfl, rfl⟩
  | cons q rest ih =>
    intro h
    have hq := h q (List.mem_cons_self q rest)
    cases hfs : env.fs q with
    | none => exact absurd hfs hq
    | some c =>
      obtain ⟨o, ho⟩ := process_ok_of_readable env q outDir apiKey ap sp c hfs
      obtain ⟨rs, hrs, hlen⟩ := ih (fun p hp => h p (List.mem_cons_of_mem q hp))
      refine ⟨o :: rs, ?_, by simp [hlen]⟩
      rw [runBatch, ho, hrs]

theorem process_withListDir (env : Env) (dir : String) (l : List String)
    (p outDir : String) (apiKey : Option String) (ap sp : String) :
    process_code_file (withListDir env dir l) p outDir apiKey ap sp
      = process_code_file env p outDir apiKey ap sp := rfl

theorem runBatch_withListDir (env : Env) (dir : String) (l : List String)
    (outDir : String) (apiKey : Option String) (ap sp : String) :
    ∀ paths : List String,
      runBatch (withListDir env dir l) outDir apiKey ap sp paths
        = runBatch env outDir apiKey ap sp paths := by
  intro paths
  induction paths with
  | nil => rfl
  | cons q rest ih =>
    rw [runBatch, runBatch, process_withListDir, ih]

theorem matchingFiles_withListDir (env : Env) (dir : String)
    (l : List String) :
    matchingFiles (withListDir env dir l) dir = l.filter pyMatches := by
  simp [matchingFiles, withListDir]

/-! ### Orchestrator claims -/

/-- Claim C4, amended.  A file whose raw source cannot be read does not
produce a per-file `Failed(reason="io")` result: the `open` call's exception
is uncaught, `process_code_file` aborts with it, and in directory-batch mode
it aborts the whole batch — no result list is produced and remaining files
are not processed. -/
theorem claim_C4_amended :
    (∀ (env : Env) (p outDir : String) (apiKey : Option String)
        (ap sp : String), env.fs p = none →
      process_code_file env p outDir apiKey ap sp
        = Except.error PyError.ioError)
    ∧ (∀ (env : Env) (dir outDir : String) (apiKey : Option String)
          (ap sp name : String), name ∈ matchingFiles env dir →
        env.fs (dir ++ "/" ++ name) = none →
        batch_process_directory env dir outDir apiKey ap sp
          = Except.error PyError.ioError) := by
  constructor
  · exact process_err_of_unreadable
  · intro env dir outDir apiKey ap sp name hmem hnone
    show runBatch env outDir apiKey ap sp _ = _
    apply runBatch_error_of_unreadable env outDir apiKey ap sp _
      (dir ++ "/" ++ name) _ hnone
    exact List.mem_map_of_mem _ ((sortStrings_perm _).mem_iff.mpr hmem)

/-- Claim C4, counterexample.  With `d/b.py` unreadable the orchestrator
does not record a `Failed(reason="io")` result for it — it raises, and the
directory batch over `d` aborts with the error instead of returning one
result per file (`d/c.py` is never processed). -/
theorem claim_C4_counterexample :
    process_code_file envBad "d/b.py" "generated-tests" none "AGENTS.md"
        ".github/skills/test-strategy/SKILL.md" = Except.error PyError.ioError
    ∧ batch_process_directory envBad "d" "generated-tests" none "AGENTS.md"
        ".github/skills/test-strategy/SKILL.md"
      = Except.error PyError.ioError := ⟨rfl, rfl⟩

/-- Claim C4, witness for the amended theorem at the `envBad` fixture. -/
theorem claim_C4_witness :
    process_code_file envBad "d/b.py" "out" none "A" "S"
      = Except.error PyError.ioError
    ∧ batch_process_directory envBad "d" "out2" none "A" "S"
      = Except.error PyError.ioError :=
  ⟨claim_C4_amended.1 envBad "d/b.py" "out" none "A" "S" rfl,
   claim_C4_amended.2 envBad "d" "out2" none "A" "S" "b.py" (by decide) rfl⟩

/-- Claim C6, amended.  The Evaluate prompt contains no source-code block
when no source text is supplied, and contains the supplied source text
verbatim inside the block when the supplied text is nonempty; supplied but
empty source text is treated like absent source (Python truthiness), see
`claim_C6_counterexample`. -/
theorem claim_C6_amended (testCode agentInstructions skillRubric : String) :
    create_test_evaluation_prompt testCode none agentInstructions skillRubric
      = evalPromptHead testCode agentInstructions skillRubric ++ evalPromptTail
    ∧ create_test_evaluation_prompt testCode (some "") agentInstructions
        skillRubric
      = create_test_evaluation_prompt testCode none agentInstructions
          skillRubric
    ∧ ∀ sourceCode : String, sourceCode ≠ "" →
        create_test_evaluation_prompt testCode (some sourceCode)
            agentInstructions skillRubric
          = evalPromptHead testCode agentInstructions skillRubric
            ++ evalSourceBlock sourceCode ++ evalPromptTail
        ∧ List.IsInfix sourceCode.data
            (create_test_evaluation_prompt testCode (some sourceCode)
              agentInstructions skillRubric).data := by
  refine ⟨by simp [create_test_evaluation_prompt], rfl, ?_⟩
  intro s hs
  have hb : (s == "") = false := beq_eq_false_iff_ne.mpr hs
  have he : create_test_evaluation_prompt testCode (some s) agentInstructions
      skillRubric
      = evalPromptHead testCode agentInstructions skillRubric
        ++ evalSourceBlock s ++ evalPromptTail := by
    simp only [create_test_evaluation_prompt, hb, Bool.false_eq_true,
      if_false]
  refine ⟨he, ?_⟩
  rw [he]
  refine ⟨(evalPromptHead testCode agentInstructions skillRubric
      ++ "\n### Source Code Being Tested:\n```python\n").data,
    ("\n```\n" ++ evalPromptTail).data, ?_⟩
  simp [evalSourceBlock, String.data_append]

theorem prefixEq_of_prefix {pat l : List Char} (h : List.IsPrefix pat l) :
    prefixEq pat l = true := by
  obtain ⟨t, ht⟩ := h
  rw [← ht]
  clear ht
  induction pat with
  | nil => rfl
  | cons a as ih => simp [prefixEq, ih]

theorem containsSub_of_infix {pat l : List Char} (h : List.IsInfix pat l) :
    containsSub pat l = true := by
  obtain ⟨s, t, hst⟩ := h
  induction s generalizing l with
  | nil =>
    have hpre : List.IsPrefix pat l := ⟨t, by simpa using hst⟩
    cases l with
    | nil =>
      have : pat = [] := List.prefix_nil.mp hpre
      rw [this]
      rfl
    | cons c rest =>
      rw [containsSub, prefixEq_of_prefix hpre]
      rfl
  | cons c s' ih =>
    cases l with
    | nil => simp at hst
    | cons d rest =>
      rw [containsSub]
      have hrest : s' ++ pat ++ t = rest := by
        have := hst
        simp only [List.cons_append, List.cons.injEq] at this
        exact this.2
      rw [ih hrest]
      simp

set_option maxRecDepth 40000 in
/-- Claim C6, counterexample.  When the supplied source text is the empty
string, the rendered Evaluate prompt is identical to the prompt with no
source supplied and contains no source-code section at all, so the supplied
source text is not included inside any source-code section. -/
theorem claim_C6_counterexample :
    create_test_evaluation_prompt "def test_a(): pass\n" (some "") "" ""
      = create_test_evaluation_prompt "def test_a(): pass\n" none "" ""
    ∧ ¬ List.IsInfix "### Source Code Being Tested:".data
        (create_test_evaluation_prompt "def test_a(): pass\n" (some "") ""
          "").data := by
  refine ⟨rfl, ?_⟩
  intro h
  have hc := containsSub_of_infix h
  rw [show containsSub "### Source Code Being Tested:".data
      (create_test_evaluation_prompt "def test_a(): pass\n" (some "") ""
        "").data = false from rfl] at hc
  cases hc

/-- Claim C6, witness for the amended theorem with a nonempty source. -/
theorem claim_C6_witness :
    create_test_evaluation_prompt "def test_a(): pass\n" (some "x = 1\n")
        "AGENT" "SKILL"
      = evalPromptHead "def test_a(): pass\n" "AGENT" "SKILL"
        ++ evalSourceBlock "x = 1\n" ++ evalPromptTail
    ∧ List.IsInfix "x = 1\n".data
        (create_test_evaluation_prompt "def test_a(): pass\n"
          (some "x = 1\n") "AGENT" "SKILL").data :=
  (claim_C6_amended "def test_a(): pass\n" "AGENT" "SKILL").2.2 "x = 1\n"
    (by decide)

/-- Claim C7.  For every parsable file processed with no credential (Python
falsy: absent or empty), the result has status `prompt_only`, no gateway
call is made, and the prompt artifact is recorded at the reported path with
content equal to the renderer's output for that file. -/
theorem claim_C7 (env : Env) (codePath outDir : String)
    (apiKey : Option String) (agentPath skillPath code : String)
    (body : List PyNode)
    (hkey : pyTruthy apiKey = false)
    (hread : env.fs codePath = some code)
    (hparse : env.parse code = Except.ok body) :
    ∃ o, process_code_file env codePath outDir apiKey agentPath skillPath
        = Except.ok o
      ∧ o.result.status = "prompt_only"
      ∧ o.gatewayCalls = []
      ∧ o.result.promptFile
          = some (outDir ++ "/" ++ pyStem codePath ++ "_prompt.txt")
      ∧ (outDir ++ "/" ++ pyStem codePath ++ "_prompt.txt",
          create_test_generation_prompt codePath code
            (analysisOf codePath body code) (loadText env agentPath)
            (loadText env skillPath) "pytest") ∈ o.written := by
  simp only [process_code_file, analyze_code_file, hread, hparse, hkey,
    Bool.false_eq_true, if_false]
  exact ⟨_, rfl, rfl, rfl, rfl,
    List.mem_cons_of_mem _ (List.mem_cons_self _ _)⟩

/-- Claim C7, witness at the `envPrompt` fixture with no API key. -/
theorem claim_C7_witness :
    ∃ o, process_code_file envPrompt "sample-code/calc.py" "generated-tests"
        none "AGENTS.md" ".github/skills/test-strategy/SKILL.md"
        = Except.ok o
      ∧ o.result.status = "prompt_only"
      ∧ o.gatewayCalls = []
      ∧ o.result.promptFile
          = some ("generated-tests" ++ "/" ++ pyStem "sample-code/calc.py"
            ++ "_prompt.txt")
      ∧ ("generated-tests" ++ "/" ++ pyStem "sample-code/calc.py"
            ++ "_prompt.txt",
          create_test_generation_prompt "sample-code/calc.py"
            "def add(a, b):\n    return a + b\n"
            (analysisOf "sample-code/calc.py"
              [PyNode.functionDef "add" 1 ["a", "b"] [PyNode.otherStmt []]]
              "def add(a, b):\n    return a + b\n")
            (loadText envPrompt "AGENTS.md")
            (loadText envPrompt ".github/skills/test-strategy/SKILL.md")
            "pytest") ∈ o.written :=
  claim_C7 envPrompt "sample-code/calc.py" "generated-tests" none "AGENTS.md"
    ".github/skills/test-strategy/SKILL.md"
    "def add(a, b):\n    return a + b\n"
    [PyNode.functionDef "add" 1 ["a", "b"] [PyNode.otherStmt []]]
    rfl rfl rfl

/-- Claim C8.  With a (truthy) credential configured, the gateway is
invoked exactly once per parsable file — on success and on failure alike —
a gateway failure yields a per-file `error` result carrying the error text,
and a batch whose files are all readable always returns one result per
matching file (a gateway failure never aborts the other files). -/
theorem claim_C8 (env : Env) (codePath outDir k agentPath skillPath
    code : String) (body : List PyNode)
    (hk : k ≠ "")
    (hread : env.fs codePath = some code)
    (hparse : env.parse code = Except.ok body) :
    (∃ o, process_code_file env codePath outDir (some k) agentPath skillPath
        = Except.ok o
      ∧ o.gatewayCalls
          = [(k, create_test_generation_prompt codePath code
              (analysisOf codePath body code) (loadText env agentPath)
              (loadText env skillPath) "pytest")])
    ∧ (∀ msg, env.gateway k
          (create_test_generation_prompt codePath code
            (analysisOf codePath body code) (loadText env agentPath)
            (loadText env skillPath) "pytest") = Except.error msg →
        ∃ o, process_code_file env codePath outDir (some k) agentPath
            skillPath = Except.ok o
          ∧ o.result.status = "error"
          ∧ o.result.errorMsg = some msg)
    ∧ (∀ dir : String,
        (∀ name ∈ matchingFiles env dir, env.fs (dir ++ "/" ++ name) ≠ none) →
        ∃ results, batch_process_directory env dir outDir (some k) agentPath
            skillPath = Except.ok results
          ∧ results.length = (matchingFiles env dir).length) := by
  have hkt : pyTruthy (some k) = true := by
    simp [pyTruthy, hk]
  refine ⟨?_, ?_, ?_⟩
  · simp only [process_code_file, analyze_code_file, hread, hparse, hkt,
      if_true, Option.getD_some]
    cases hg : env.gateway k
        (create_test_generation_prompt codePath code
          (analysisOf codePath body code) (loadText env agentPath)
          (loadText env skillPath) "pytest") with
    | ok t => exact ⟨_, rfl, rfl⟩
    | error msg => exact ⟨_, rfl, rfl⟩
  · intro msg hmsg
    simp only [process_code_file, analyze_code_file, hread, hparse, hkt,
      if_true, Option.getD_some, hmsg]
    exact ⟨_, rfl, rfl, rfl⟩
  · intro dir hreadable
    obtain ⟨results, hres, hlen⟩ :=
      runBatch_ok_of_readable env outDir (some k) agentPath skillPath
        ((sortStrings (matchingFiles env dir)).map
          (fun name => dir ++ "/" ++ name))
        (by
          intro p hp
          obtain ⟨name, hname, hpe⟩ := List.mem_map.mp hp
          rw [← hpe]
          exact hreadable name ((sortStrings_perm _).mem_iff.mp hname))
    refine ⟨results, hres, ?_⟩
    rw [hlen, List.length_map, (sortStrings_perm _).length_eq]

/-- Claim C8, witness at the `envKey` fixture with key `"sk-key"`. -/
theorem claim_C8_witness :
    (∃ o, process_code_file envKey "d/a.py" "out" (some "sk-key") "A" "S"
        = Except.ok o
      ∧ o.gatewayCalls
          = [("sk-key", create_test_generation_prompt "d/a.py" "x = 1\n"
              (analysisOf "d/a.py" [PyNode.otherStmt []] "x = 1\n")
              (loadText envKey "A") (loadText envKey "S") "pytest")])
    ∧ (∃ o, process_code_file envKey "d/a.py" "out" (some "sk-key") "A" "S"
        = Except.ok o
      ∧ o.result.status = "error"
      ∧ o.result.errorMsg = some "Connection error") := by
  have h := claim_C8 envKey "d/a.py" "out" "sk-key" "A" "S" "x = 1\n"
    [PyNode.otherStmt []] (by decide) rfl rfl
  exact ⟨h.1, h.2.1 "Connection error" rfl⟩

/-- Claim C10.  Directory-batch processing visits exactly the `*.py`
entries of the directory, as paths in lexicographically sorted order
(a permutation of the matching entries, one result per matching file when
a result list is returned), and its outcome does not depend on the
filesystem's enumeration order. -/
theorem claim_C10 (env : Env) (dir outDir : String) (apiKey : Option String)
    (ap sp : String) :
    List.Pairwise (fun a b => stringLe a b = true)
      ((sortStrings (matchingFiles env dir)).map
        (fun name => dir ++ "/" ++ name))
    ∧ List.Perm (sortStrings (matchingFiles env dir)) (matchingFiles env dir)
    ∧ batch_process_directory env dir outDir apiKey ap sp
        = runBatch env outDir apiKey ap sp
            ((sortStrings (matchingFiles env dir)).map
              (fun name => dir ++ "/" ++ name))
    ∧ (∀ results,
        batch_process_directory env dir outDir apiKey ap sp
          = Except.ok results →
        results.length = (matchingFiles env dir).length)
    ∧ (∀ l', List.Perm l' (env.listDir dir) →
        batch_process_directory (withListDir env dir l') dir outDir apiKey
            ap sp
          = batch_process_directory env dir outDir apiKey ap sp) := by
  refine ⟨?_, sortStrings_perm _, rfl, ?_, ?_⟩
  · rw [List.pairwise_map]
    refine List.Pairwise.imp ?_ (sortStrings_pairwise _)
    intro a b hab
    rw [stringLe_append_left]
    exact hab
  · intro results h
    have hlen := runBatch_length env outDir apiKey ap sp _ results h
    rw [hlen, List.length_map, (sortStrings_perm _).length_eq]
  · intro l' hp
    show runBatch _ _ _ _ _ _ = runBatch _ _ _ _ _ _
    rw [matchingFiles_withListDir,
      sortStrings_eq_of_perm (hp.filter pyMatches),
      runBatch_withListDir]
    rfl

/-- Claim C10, witness at the `envSort` fixture: the two matching files
produce exactly two results, and re-enumerating the directory in another
order leaves the batch outcome unchanged. -/
theorem claim_C10_witness :
    (∃ results, batch_process_directory envSort "d" "out" none "A" "S"
        = Except.ok results
      ∧ results.length = (matchingFiles envSort "d").length)
    ∧ batch_process_directory (withListDir envSort "d"
          ["a.py", "note.txt", "c.py"]) "d" "out" none "A" "S"
      = batch_process_directory envSort "d" "out" none "A" "S" := by
  refine ⟨⟨_, rfl, ?_⟩, ?_⟩
  · exact (claim_C10 envSort "d" "out" none "A" "S").2.2.2.1 _ rfl
  · exact (claim_C10 envSort "d" "out" none "A" "S").2.2.2.2
      ["a.py", "note.txt", "c.py"] (by decide)
